import Mathlib

/-!
Shallow embedding of the local persistence layer of the `local-note`
application: the note record store (`src/lib/db.ts`), the image blob store
(`src/lib/image-storage.ts`) and the import/export manager
(`ImportExportManager`).  Machine state (IndexedDB object stores, the pending
upload set, the blob-URL cache) is modelled as explicit pure data threaded
through the operations; platform primitives (`Date.now()`, the random id
suffix, `JSON.stringify`) are supplied as explicit parameters.
-/

namespace LocalNote

/-- The fixed emotion enumeration of `Note.emotion` (src/lib/db.ts). -/
inductive Emotion
  | Calm | Happy | Funny | Depressed | Sad | Angry
deriving DecidableEq, Repr

/-- `Note` record (src/lib/db.ts, `interface Note`).  Timestamps are the
`Date.now()` millisecond values, modelled as `Nat`. -/
structure Note where
  id : String
  title : String
  content : String
  date : String
  emotion : Emotion
  createdAt : Nat
  updatedAt : Nat
deriving DecidableEq, Repr

/-- Data supplied to `createNote` — `Omit<Note, "id" | "createdAt" | "updatedAt">`
minus nothing else (the caller supplies title/content/date/emotion). -/
structure NoteData where
  title : String
  content : String
  date : String
  emotion : Emotion
deriving DecidableEq, Repr

/-- A partial note update as it exists at runtime: a JS object in which any of
the `Note` fields may be present or absent.  The TypeScript signature of
`updateNote` is `Partial<Omit<Note, "id" | "createdAt">>`, but that is a
static-only restriction: the runtime spread `{...existingNote, ...updates}`
applies every field that is present on the object, so the model keeps all
fields optional, including `id` and `createdAt`. -/
structure NotePatch where
  id : Option String := none
  title : Option String := none
  content : Option String := none
  date : Option String := none
  emotion : Option Emotion := none
  createdAt : Option Nat := none
  updatedAt : Option Nat := none
deriving DecidableEq, Repr

/-- The notes object store: a list of records keyed by `id`
(IndexedDB `createObjectStore("notes", { keyPath: "id" })`). -/
abbrev NoteStore := List Note

/-- `store.get(id)`: the record whose key equals `id`, if any. -/
def findNote (s : NoteStore) (id : String) : Option Note :=
  s.find? (fun n => n.id = id)

/-- `store.put(note)`: replace the record with key `note.id`, or insert it if
no record has that key. -/
def putNote (s : NoteStore) (n : Note) : NoteStore :=
  if s.any (fun m => m.id = n.id) then
    s.map (fun m => if m.id = n.id then n else m)
  else
    s ++ [n]

/-- `store.delete(id)`: remove the record with key `id` (no-op if absent). -/
def deleteNoteRec (s : NoteStore) (id : String) : NoteStore :=
  s.filter (fun n => n.id ≠ id)

/-- The id generated by `createNote`:
`` `note_${now}_${Math.random().toString(36).substr(2, 9)}` `` with the random
suffix supplied explicitly. -/
def genNoteId (now : Nat) (suffix : String) : String :=
  "note_" ++ toString now ++ "_" ++ suffix

/-- `NotesDB.createNote` (src/lib/db.ts:231-256): build the full record with a
fresh id and `createdAt = updatedAt = now`, then `store.add` it.  IndexedDB
`add` fails with a `ConstraintError` when a record with the same key already
exists; the error branch leaves the store untouched. -/
def createNote (s : NoteStore) (d : NoteData) (now : Nat) (suffix : String) :
    Except String (Note × NoteStore) :=
  let note : Note :=
    { id := genNoteId now suffix
      title := d.title
      content := d.content
      date := d.date
      emotion := d.emotion
      createdAt := now
      updatedAt := now }
  if s.any (fun m => m.id = note.id) then
    .error "Failed to create note"
  else
    .ok (note, s ++ [note])

/-- The runtime merge `{ ...existingNote, ...updates, updatedAt: Date.now() }`
of `NotesDB.updateNote`: every field present on `updates` overwrites the
existing field — including `id` and `createdAt` when present — and
`updatedAt` is always set to `now` because it is spread last. -/
def mergeNote (existing : Note) (p : NotePatch) (now : Nat) : Note :=
  { id := p.id.getD existing.id
    title := p.title.getD existing.title
    content := p.content.getD existing.content
    date := p.date.getD existing.date
    emotion := p.emotion.getD existing.emotion
    createdAt := p.createdAt.getD existing.createdAt
    updatedAt := now }

/-- `NotesDB.updateNote` (src/lib/db.ts:258-287), one attempt: look the note
up by id; if absent, throw `Note with id ${id} not found` without touching the
store; otherwise merge and `store.put` the result. -/
def updateNote (s : NoteStore) (id : String) (p : NotePatch) (now : Nat) :
    Except String Note × NoteStore :=
  match findNote s id with
  | none => (.error ("Note with id " ++ id ++ " not found"), s)
  | some existing =>
      let updated := mergeNote existing p now
      (.ok updated, putNote s updated)

/-- `NotesDB.withRetry` (src/lib/db.ts:150-179) specialised to a deterministic
store operation: attempt the operation up to `attempts` times, returning the
first success, or the last error once the attempts are exhausted.  The
connection re-initialisation inside the catch block touches only the
connection handle (`this.db` / `this.initPromise`), never the persisted
records, so it has no counterpart in the record-level state. -/
def withRetry (f : NoteStore → Except String α × NoteStore) :
    Nat → NoteStore → Except String α × NoteStore
  | 0, s => f s
  | 1, s => f s
  | Nat.succ n, s =>
      match f s with
      | (.ok a, s') => (.ok a, s')
      | (.error _, s') => withRetry f n s'

/-- The public `updateNote`, wrapped in `withRetry` with `maxRetries = 3`. -/
def updateNoteOp (s : NoteStore) (id : String) (p : NotePatch) (now : Nat) :
    Except String Note × NoteStore :=
  withRetry (fun st => updateNote st id p now) 3 s

/-- One step of the stable sort behind `getAllNotes`: insert `n` (a later
element) into the already-sorted prefix, placing it before the first entry
with a strictly smaller `createdAt` — so among equal keys the earlier element
stays first, as JS's stable `Array.prototype.sort` guarantees. -/
def insertNoteDesc (n : Note) : List Note → List Note
  | [] => [n]
  | m :: rest =>
      if Nat.blt m.createdAt n.createdAt then n :: m :: rest
      else m :: insertNoteDesc n rest

/-- `NotesDB.getAllNotes` (src/lib/db.ts:182-210): every stored note, sorted
newest-first by `createdAt` (the comparator
`(a, b) => b.createdAt - a.createdAt`, applied by a stable sort). -/
def getAllNotes (s : NoteStore) : List Note :=
  s.foldl (fun acc n => insertNoteDesc n acc) []

/-- JS `String.prototype.toLowerCase`, as the lower-cased character list
(`Char.toLower` is ASCII case folding, which covers the repository's data). -/
def jsLower (s : String) : List Char :=
  s.toList.map Char.toLower

/-- JS `String.prototype.includes`: substring (infix) containment. -/
def jsIncludes (hay needle : List Char) : Bool :=
  decide (needle <:+: hay)

/-- The per-note filter of `searchNotes`:
`note.title.toLowerCase().includes(q) || note.content.toLowerCase().includes(q)`
with `q` the lower-cased query. -/
def noteMatches (lowercaseQuery : List Char) (n : Note) : Bool :=
  jsIncludes (jsLower n.title) lowercaseQuery ||
    jsIncludes (jsLower n.content) lowercaseQuery

/-- The body of `NotesDB.searchNotes` (src/lib/db.ts:396-409) applied to the
outcome of `getAllNotes`: on any internal failure the catch block returns the
empty list; on success it filters by case-insensitive title/content substring
match. -/
def searchNotesR (fetched : Except String (List Note)) (query : String) :
    List Note :=
  match fetched with
  | .error _ => []
  | .ok allNotes => allNotes.filter (noteMatches (jsLower query))

/-- `NotesDB.searchNotes` on a live store (the `getAllNotes` fetch succeeds). -/
def searchNotes (s : NoteStore) (query : String) : List Note :=
  searchNotesR (.ok (getAllNotes s)) query

/-! ## Image storage (src/lib/image-storage.ts) -/

/-- `StoredImage` metadata (src/lib/image-storage.ts).  The binary `blob`
payload plays no part in any of the modelled operations (only its metadata is
read), so it is not represented.  `isTemporary` and `lastReferencedAt` are
optional fields in the interface and are modelled as `Option`. -/
structure StoredImage where
  id : String
  filename : String
  mimeType : String
  size : Nat
  uploadedAt : Nat
  isTemporary : Option Bool := none
  lastReferencedAt : Option Nat := none
deriving DecidableEq, Repr

/-- The image store state: the `images` object store (keyed by `id`), the
in-memory `pendingImages` set and the `blobUrlCache` map. -/
structure ImageState where
  images : List StoredImage
  pendingImages : List String
  blobUrlCache : List (String × String)
deriving DecidableEq, Repr

/-- `CLEANUP_GRACE_PERIOD = 300000` (5 minutes, in milliseconds). -/
def CLEANUP_GRACE_PERIOD : Nat := 300000

/-- The record update performed by `markImageAsReferenced` on an existing
record: `image.isTemporary = false; image.lastReferencedAt = Date.now()`. -/
def refreshImage (now : Nat) (img : StoredImage) : StoredImage :=
  { img with isTemporary := some false, lastReferencedAt := some now }

/-- `ImageStorage.markImageAsReferenced` (src/lib/image-storage.ts:157-192)
restricted to the `images` table: if a record with the id exists it is
rewritten with `isTemporary = false` and `lastReferencedAt = now`; otherwise
the call is a no-op. -/
def markImageAsReferenced (now : Nat) (id : String) (imgs : List StoredImage) :
    List StoredImage :=
  imgs.map (fun i => if i.id = id then refreshImage now i else i)

/-- `ImageStorage.deleteImage` (src/lib/image-storage.ts:286-312): revoke any
cached blob URL for the id, then delete the record by key. -/
def deleteImage (id : String) (st : ImageState) : ImageState :=
  { st with
    images := st.images.filter (fun i => i.id ≠ id)
    blobUrlCache := st.blobUrlCache.filter (fun e => e.1 ≠ id) }

/-- `ImageStorage.shouldDeleteImage` (src/lib/image-storage.ts:407-420):
keep anything uploaded or referenced within the grace period, and beyond it
delete only images with `isTemporary === true`.  The JS subtractions
`now - image.uploadedAt` are on plain numbers, hence computed in `Int`. -/
def shouldDeleteImage (image : StoredImage) (now : Nat) : Bool :=
  if (now : Int) - (image.uploadedAt : Int) < (CLEANUP_GRACE_PERIOD : Int) then
    false
  else
    let recentlyReferenced : Bool :=
      match image.lastReferencedAt with
      | some t => decide ((now : Int) - (t : Int) < (CLEANUP_GRACE_PERIOD : Int))
      | none => false
    if recentlyReferenced then false
    else image.isTemporary = some true

/-- One iteration of the `cleanupUnusedImages` loop over the snapshot of all
images: skip pending ids; refresh (and keep) referenced ids; otherwise delete
exactly when `force || shouldDeleteImage`, incrementing the deletion count. -/
def cleanupStep (referenced : List String) (force : Bool) (now : Nat)
    (acc : Nat × ImageState) (image : StoredImage) : Nat × ImageState :=
  if acc.2.pendingImages.contains image.id then
    acc
  else if referenced.contains image.id then
    (acc.1,
     { acc.2 with images := markImageAsReferenced now image.id acc.2.images })
  else if force || shouldDeleteImage image now then
    (acc.1 + 1, deleteImage image.id acc.2)
  else
    acc

/-- `ImageStorage.cleanupUnusedImages` (src/lib/image-storage.ts:363-405):
fetch the snapshot of all images, then run the per-image loop against it,
returning the number of deleted images and the final state.  `Date.now()` is
read once at the start of the loop; the nested `markImageAsReferenced` calls
read it again, modelled with the same instant. -/
def cleanupUnusedImages (referenced : List String) (force : Bool) (now : Nat)
    (st : ImageState) : Nat × ImageState :=
  st.images.foldl (cleanupStep referenced force now) (0, st)

/-- `safeCleanupUnusedImages` = cleanup with `force = false`. -/
def safeCleanupUnusedImages (referenced : List String) (now : Nat)
    (st : ImageState) : Nat × ImageState :=
  cleanupUnusedImages referenced false now st

/-- `forceCleanupUnusedImages` = cleanup with `force = true`. -/
def forceCleanupUnusedImages (referenced : List String) (now : Nat)
    (st : ImageState) : Nat × ImageState :=
  cleanupUnusedImages referenced true now st

/-! ### `extractImageIds` and its regular expression

`ImageStorage.extractImageIds` (src/lib/image-storage.ts:349-360) matches the
content against the literal `/!\[([^\]]*)\]$$blob:([^)]+)$$/g`.  In a
JavaScript regular expression `$` (with no `m` flag) is a zero-width
assertion that holds only at the end of the input, so after the `]` the
pattern demands end-of-input and then the literal characters `blob:` — which
is unsatisfiable.  The matcher below follows the pattern atom by atom. -/

/-- Attempt to match `!\[([^\]]*)\]$$blob:([^)]+)$$` at offset `i` of `cs`.
`[^\]]*` is greedy, but since the class excludes `]` no backtracking can
occur.  Returns the end offset on success. -/
def tryMatchBrokenAt (cs : List Char) (i : Nat) : Option Nat :=
  match cs.drop i with
  | '!' :: '[' :: rest =>
      -- `([^\]]*)` then `\]`
      let altLen := (rest.takeWhile (fun c => c ≠ ']')).length
      match rest.drop altLen with
      | ']' :: rest2 =>
          -- first `$`: assert end of input
          if rest2 = [] then
            -- second `$` holds trivially at end; next the literal `b` of
            -- `blob:` must consume a character — but none remain
            match rest2 with
            | 'b' :: _ => some (i + 2 + altLen + 2)
            | _ => none
          else none
      | _ => none
  | _ => none

/-- Global scan of `String.prototype.match` with the `g` flag: collect
non-overlapping matches left to right, advancing past each match (or by one
on a zero-width match).  `fuel` bounds the recursion by the input length. -/
def gScanBroken (cs : List Char) : Nat → Nat → List (Nat × Nat)
  | _, 0 => []
  | i, fuel + 1 =>
      if i > cs.length then []
      else
        match tryMatchBrokenAt cs i with
        | some stop =>
            (i, stop) :: gScanBroken cs (max stop (i + 1)) fuel
        | none => gScanBroken cs (i + 1) fuel

/-- The inner per-match extraction `match.match(/blob:([^)]+)/)`: find the
first occurrence of `blob:` in the matched substring and capture the maximal
nonempty run of non-`)` characters after it; the code then maps a failed
match to `""`, which `.filter(Boolean)` removes. -/
def innerBlobId : List Char → String
  | 'b' :: 'l' :: 'o' :: 'b' :: ':' :: rest =>
      let captured := rest.takeWhile (fun c => c ≠ ')')
      if captured = [] then innerBlobId ('l' :: 'o' :: 'b' :: ':' :: rest)
      else String.mk captured
  | _ :: rest => innerBlobId rest
  | [] => ""

/-- `ImageStorage.extractImageIds`: run the (unsatisfiable) global regex, map
each matched substring through the inner `blob:` capture, and drop falsy
(empty) entries. -/
def extractImageIds (content : String) : List String :=
  let cs := content.toList
  let found := (gScanBroken cs 0 (cs.length + 1)).map
    (fun p => (cs.drop p.1).take (p.2 - p.1))
  (found.map innerBlobId).filter (fun s => s ≠ "")

/-! ## `deleteMultipleNotes` completion structure (src/lib/db.ts:308-351)

The promise body issues one `store.delete(id)` request per id; both the
success and the error callback of each request invoke `checkComplete`, which
increments `completed` and settles the promise (resolve or reject) exactly
when `completed === ids.length`.  The settling test lives only inside
`checkComplete`, so it runs once per issued request. -/

/-- The mutable completion state of the promise body: the `completed` counter
and whether the promise has settled (resolved or rejected). -/
structure DeleteManyState where
  completed : Nat
  settled : Bool
deriving DecidableEq, Repr

/-- One `checkComplete` invocation with `ids.length = total`. -/
def checkComplete (total : Nat) (st : DeleteManyState) : DeleteManyState :=
  let c := st.completed + 1
  { completed := c, settled := st.settled || c == total }

/-- Run the per-request callbacks of `deleteMultipleNotes ids`: one
`checkComplete` per id (each request's success or error callback fires exactly
once). -/
def runDeleteCallbacks (ids : List String) : DeleteManyState :=
  ids.foldl (fun st _ => checkComplete ids.length st)
    { completed := 0, settled := false }

/-- Whether the promise returned by `deleteMultipleNotes ids` ever settles. -/
def deleteMultipleSettles (ids : List String) : Bool :=
  (runDeleteCallbacks ids).settled

/-- The effect on the notes table once every per-id deletion has run. -/
def deleteMultipleNotesStore (ids : List String) (s : NoteStore) : NoteStore :=
  ids.foldl deleteNoteRec s

/-! ## A small JSON universe

`previewImport` and `validateImportData` operate on the duck-typed result of
`JSON.parse`; this universe is the codomain of the (abstract) parser. -/

/-- JSON values.  `JSON.parse` never yields `undefined`, so absence of an
object field is the only way a lookup is undefined. -/
inductive Json
  | null
  | bool (b : Bool)
  | num (n : Int)
  | str (s : String)
  | arr (elems : List Json)
  | obj (fields : List (String × Json))

namespace Json

/-- Property access `data.key`: `none` models JS `undefined`. -/
def get : Json → String → Option Json
  | obj fields, key => (fields.find? (fun f => f.1 = key)).map (fun f => f.2)
  | _, _ => none

/-- JS truthiness of a defined value (`undefined` is handled by `Option`). -/
def truthy : Json → Bool
  | null => false
  | bool b => b
  | num n => n ≠ 0
  | str s => s ≠ ""
  | arr _ => true
  | obj _ => true

/-- Truthiness of a possibly-undefined property. -/
def truthyOpt : Option Json → Bool
  | none => false
  | some v => truthy v

/-- JS `typeof` (on parsed JSON: `null`, arrays and objects are "object"). -/
def jsTypeof : Json → String
  | null => "object"
  | bool _ => "boolean"
  | num _ => "number"
  | str _ => "string"
  | arr _ => "object"
  | obj _ => "object"

/-- `Object.keys`: own enumerable keys — field names for objects, index
strings for arrays and strings, nothing for primitives. -/
def objectKeys : Json → List String
  | obj fields => fields.map (fun f => f.1)
  | arr elems => (List.range elems.length).map toString
  | str s => (List.range s.length).map toString
  | _ => []

end Json

/-! ## ImportExportManager (src/unnamed/part_003) -/

/-- `MAX_FILE_SIZE = 50 * 1024 * 1024`. -/
def MAX_FILE_SIZE : Nat := 50 * 1024 * 1024

/-- `CHUNK_SIZE = 1000`. -/
def CHUNK_SIZE : Nat := 1000

/-- A setting record as persisted by `setSetting` (src/lib/db.ts:376-393):
`{ id: key, value, lastUpdated: Date.now() }`. -/
structure SettingRecord where
  key : String
  value : Json
  lastUpdated : Nat

/-- `NotesDB.setSetting`: upsert by key (`store.put` on keyPath `id`). -/
def setSetting (key : String) (value : Json) (now : Nat)
    (s : List SettingRecord) : List SettingRecord :=
  if s.any (fun r => r.key = key) then
    s.map (fun r =>
      if r.key = key then { key := key, value := value, lastUpdated := now }
      else r)
  else
    s ++ [{ key := key, value := value, lastUpdated := now }]

/-- `NotesDB.getSetting`: the stored `value` for the key, or JS `null`. -/
def getSetting (key : String) (s : List SettingRecord) : Json :=
  match s.find? (fun r => r.key = key) with
  | some r => r.value
  | none => .null

/-- The whole persisted state visible to the import/export subsystem: the two
record-store tables plus the image store. -/
structure AppState where
  notes : NoteStore
  settings : List SettingRecord
  images : ImageState

/-- The versioned export envelope (`interface ExportData`). -/
structure ExportData where
  version : String
  exportDate : String
  notes : List Note
  settings : List (String × Json)
  totalNotes : Nat
  exportedBy : String
  appVersion : String

/-- `CURRENT_VERSION = "1.0.0"`. -/
def CURRENT_VERSION : String := "1.0.0"

/-- The timestamp used in the export filename:
`new Date().toISOString().replace(/[:.]/g, "-").split("T")[0]`. -/
def exportTimestamp (isoNow : String) : String :=
  let replaced := isoNow.map (fun c => if c = ':' || c = '.' then '-' else c)
  (replaced.splitOn "T").headD ""

/-- The result of `exportAllData`, together with the download event:
`download = some filename` iff the file-download mechanism was triggered. -/
structure ExportOutcome where
  success : Bool
  error : Option String
  filename : Option String
  download : Option String
deriving DecidableEq, Repr

/-- The oversize error message
`` `Export file too large: ${Math.round(bytes/1024/1024)}MB (max: 50MB)` ``;
`Math.round` on the nonnegative quotient is floor(x + 1/2). -/
def exportTooLargeMsg (bytes : Nat) : String :=
  "Export file too large: " ++ toString ((2 * bytes + 1048576) / 2097152) ++
    "MB (max: 50MB)"

/-- The export envelope assembled by `exportAllData` for state `st` at ISO
time `isoNow` (src/unnamed/part_003:67-77): all notes (via `getAllNotes`),
the theme setting, and the metadata block. -/
def exportEnvelope (isoNow : String) (st : AppState) : ExportData :=
  let notes := getAllNotes st.notes
  { version := CURRENT_VERSION
    exportDate := isoNow
    notes := notes
    settings := [("theme", getSetting "theme" st.settings)]
    totalNotes := notes.length
    exportedBy := "Local Note App"
    appVersion := CURRENT_VERSION }

/-- `ImportExportManager.exportAllData` (src/unnamed/part_003:40-119) on a
live store.  `stringify` models `JSON.stringify(exportData, null, 2)` and
`isoNow` models `new Date().toISOString()`; the byte size of the generated
blob is the UTF-8 size of the serialized string.  The oversize check throws
before any download machinery runs, and the catch block converts the throw
into a structured failure. -/
def exportAllData (stringify : ExportData → String) (isoNow : String)
    (st : AppState) : ExportOutcome :=
  let jsonString := stringify (exportEnvelope isoNow st)
  let fileSizeBytes := jsonString.utf8ByteSize
  if fileSizeBytes > MAX_FILE_SIZE then
    { success := false
      error := some (exportTooLargeMsg fileSizeBytes)
      filename := none
      download := none }
  else
    let filename := "notes_backup_" ++ exportTimestamp isoNow ++ ".json"
    { success := true
      error := none
      filename := some filename
      download := some filename }

/-! ### Structural validation (`validateImportData` / `isValidNote`) -/

/-- `typeof` of a possibly-undefined property. -/
def typeofOpt : Option Json → String
  | none => "undefined"
  | some v => v.jsTypeof

/-- `ImportExportManager.isValidNote` (src/unnamed/part_003:343-355): the note
is a truthy object whose seven fields have the expected `typeof`s. -/
def isValidNote (note : Json) : Bool :=
  note.truthy && note.jsTypeof = "object" &&
    typeofOpt (note.get "id") = "string" &&
    typeofOpt (note.get "title") = "string" &&
    typeofOpt (note.get "content") = "string" &&
    typeofOpt (note.get "date") = "string" &&
    typeofOpt (note.get "emotion") = "string" &&
    typeofOpt (note.get "createdAt") = "number" &&
    typeofOpt (note.get "updatedAt") = "number"

/-- The first-ten-notes scan of `validateImportData`: report the first invalid
index (the loop breaks after pushing one error). -/
def firstInvalidNote (notes : List Json) : Option Nat :=
  (List.range (min notes.length 10)).find?
    (fun i => !isValidNote (notes.getD i .null))

/-- `ImportExportManager.validateImportData` (src/unnamed/part_003:309-341). -/
def validateImportData (data : Json) : Bool × List String :=
  if !data.truthy || data.jsTypeof ≠ "object" then
    (false, ["Invalid data format"])
  else
    let e1 : List String :=
      if !Json.truthyOpt (data.get "version") then
        ["Missing version information"]
      else []
    let e2 : List String :=
      match data.get "notes" with
      | some (Json.arr elems) =>
          match firstInvalidNote elems with
          | some i => ["Invalid note structure at index " ++ toString i]
          | none => []
      | some v =>
          if v.truthy then ["Notes data must be an array"] else []
      | none => []
    let e3 : List String :=
      match data.get "settings" with
      | some v =>
          if v.truthy && v.jsTypeof ≠ "object" then
            ["Settings data must be an object"]
          else []
      | none => []
    let errors := e1 ++ e2 ++ e3
    (errors.isEmpty, errors)

/-! ### Import preview (dry run) -/

/-- The collaborator `File`: name, byte size, and text content as delivered by
`readFileAsText`. -/
structure FileModel where
  name : String
  size : Nat
  content : String

/-- `interface ImportPreview`. -/
structure ImportPreview where
  totalNotes : Nat
  existingNotes : Nat
  newNotes : Nat
  settings : List String
  hasValidStructure : Bool
  errors : List String
deriving DecidableEq, Repr

/-- The initial preview object. -/
def emptyPreview : ImportPreview :=
  { totalNotes := 0, existingNotes := 0, newNotes := 0, settings := []
    hasValidStructure := false, errors := [] }

/-- The oversize-file preview error message. -/
def fileTooLargeMsg (bytes : Nat) : String :=
  "File too large: " ++ toString ((2 * bytes + 1048576) / 2097152) ++
    "MB (max: 50MB)"

/-- `ImportExportManager.previewImport` (src/unnamed/part_003:122-192).
`parse` models `JSON.parse` (`none` = throw, caught as "Invalid JSON
format").  Every database call in the source (`notesDB.init`,
`notesDB.getAllNotes`) is a read, so the state is threaded unchanged through
every branch. -/
def previewImport (file : FileModel) (parse : String → Option Json)
    (st : AppState) : ImportPreview × AppState :=
  if file.size > MAX_FILE_SIZE then
    ({ emptyPreview with errors := [fileTooLargeMsg file.size] }, st)
  else if !(file.name.toLower.endsWith ".json") then
    ({ emptyPreview with errors := ["File must be a JSON file"] }, st)
  else
    match parse file.content with
    | none => ({ emptyPreview with errors := ["Invalid JSON format"] }, st)
    | some data =>
        let validation := validateImportData data
        if !validation.1 then
          ({ emptyPreview with errors := validation.2 }, st)
        else
          -- `notesDB.init(); notesDB.getAllNotes()` — reads only
          let existingIds := (getAllNotes st.notes).map (fun n => n.id)
          -- `data.notes || []`; validation guarantees a truthy value is an
          -- array, and a falsy one is replaced by `[]`
          let importNotes :=
            match data.get "notes" with
            | some (Json.arr elems) => elems
            | _ => []
          let existingCount := importNotes.countP (fun note =>
            match note.get "id" with
            | some (Json.str s) => existingIds.contains s
            | _ => false)
          -- `Object.keys(data.settings).filter(k => settings[k] !== undefined)`:
          -- parsed JSON never holds `undefined`, so the filter keeps all keys
          let settingKeys :=
            match data.get "settings" with
            | some v => if v.truthy then v.objectKeys else []
            | none => []
          ({ totalNotes := importNotes.length
             existingNotes := existingCount
             newNotes := importNotes.length - existingCount
             settings := settingKeys
             hasValidStructure := true
             errors := [] }, st)

/-! ### Mutating import -/

/-- `interface ImportResult` (`imported.notes` / `imported.settings`
flattened). -/
structure ImportResult where
  success : Bool
  importedNotes : Nat
  importedSettings : Nat
  errors : List String
  warnings : List String
deriving DecidableEq, Repr

/-- The two merge modes. -/
inductive MergeMode
  | merge | overwrite
deriving DecidableEq, Repr

/-- The platform clock and random source: `nowSeq k` / `sufSeq k` are the
values of `Date.now()` and the random id suffix at the k-th consuming call
during the import. -/
structure Env where
  nowSeq : Nat → Nat
  sufSeq : Nat → String

/-- The id `createNote` generates at the k-th consuming call. -/
def genId (e : Env) (k : Nat) : String :=
  genNoteId (e.nowSeq k) (e.sufSeq k)

/-- The accumulator of the chunked note import: the notes table, the index
into the clock/random streams, `result.imported.notes` and
`result.warnings`. -/
structure ImportAcc where
  store : NoteStore
  genIdx : Nat
  importedNotes : Nat
  warnings : List String
deriving DecidableEq, Repr

/-- The overwrite path passes the entire imported note object as the update
partial: `notesDB.updateNote(note.id, note)`. -/
def notePatchOfNote (n : Note) : NotePatch :=
  { id := some n.id
    title := some n.title
    content := some n.content
    date := some n.date
    emotion := some n.emotion
    createdAt := some n.createdAt
    updatedAt := some n.updatedAt }

/-- The per-record warning
`` `Failed to import note '${note.title}': ${error}` `` (an `Error` value
stringifies as `Error: <message>`). -/
def importFailMsg (n : Note) (err : String) : String :=
  "Failed to import note '" ++ n.title ++ "': Error: " ++ err

/-- The `NoteData` passed to `createNote` by `importNotesChunk`: title,
content, emotion and date of the imported note (the foreign id and the
timestamps are dropped; `createNote` generates fresh ones). -/
def importNoteData (n : Note) : NoteData :=
  { title := n.title, content := n.content, date := n.date
    emotion := n.emotion }

/-- One merge-mode record import: create only when no record with the
imported id exists, else skip silently; a failed create becomes a warning. -/
def importNoteMerge (e : Env) (acc : ImportAcc) (n : Note) : ImportAcc :=
  match findNote acc.store n.id with
  | some _ => acc
  | none =>
      match createNote acc.store (importNoteData n) (e.nowSeq acc.genIdx)
          (e.sufSeq acc.genIdx) with
      | .ok (_, s') =>
          { acc with
            store := s'
            genIdx := acc.genIdx + 1
            importedNotes := acc.importedNotes + 1 }
      | .error msg =>
          { acc with
            genIdx := acc.genIdx + 1
            warnings := acc.warnings ++ [importFailMsg n msg] }

/-- One overwrite-mode record import: try `updateNote` (through its retry
wrapper) with the full note as the partial; on failure fall back to
`createNote`, whose own failure becomes a warning. -/
def importNoteOverwrite (e : Env) (acc : ImportAcc) (n : Note) : ImportAcc :=
  match updateNoteOp acc.store n.id (notePatchOfNote n) (e.nowSeq acc.genIdx) with
  | (.ok _, s') =>
      { acc with
        store := s'
        genIdx := acc.genIdx + 1
        importedNotes := acc.importedNotes + 1 }
  | (.error _, _) =>
      match createNote acc.store (importNoteData n) (e.nowSeq (acc.genIdx + 1))
          (e.sufSeq (acc.genIdx + 1)) with
      | .ok (_, s') =>
          { acc with
            store := s'
            genIdx := acc.genIdx + 2
            importedNotes := acc.importedNotes + 1 }
      | .error msg =>
          { acc with
            genIdx := acc.genIdx + 2
            warnings := acc.warnings ++ [importFailMsg n msg] }

/-- `ImportExportManager.importNotesChunk` (src/unnamed/part_003:357-396):
process the chunk's records in order, threading the store and counters. -/
def importNotesChunk (mode : MergeMode) (e : Env) (chunk : List Note)
    (acc : ImportAcc) : ImportAcc :=
  chunk.foldl
    (fun a n =>
      match mode with
      | .merge => importNoteMerge e a n
      | .overwrite => importNoteOverwrite e a n)
    acc

/-- The loop of `chunkArray`, with an explicit iteration bound: for a chunk
size `k ≥ 1` each iteration of the source's loop (`i += k`) consumes at least
one element, so `l.length` iterations always suffice. -/
def chunkArrayAux (k : Nat) : Nat → List α → List (List α)
  | _, [] => []
  | 0, _ :: _ => []
  | fuel + 1, l@(_ :: _) => l.take k :: chunkArrayAux k fuel (l.drop k)

/-- `ImportExportManager.chunkArray` (src/unnamed/part_003:398-404): slice the
list into consecutive pieces of `k` elements.  The source's loop never
terminates for `k = 0`; the only call site passes `CHUNK_SIZE = 1000`. -/
def chunkArray (l : List α) (k : Nat) : List (List α) :=
  chunkArrayAux k l.length l

/-- The chunk loop of `importData` (src/unnamed/part_003:248-263): before each
chunk the cancellation signal is polled (`cancel i` is the value of
`signal.aborted` observed at the boundary before chunk `i`); an observed abort
throws `Import cancelled`, returning `true` with the accumulator as of the
completed chunks. -/
def importNotesLoop (mode : MergeMode) (e : Env) (cancel : Nat → Bool) :
    List (List Note) → Nat → ImportAcc → Bool × ImportAcc
  | [], _, acc => (false, acc)
  | c :: cs, i, acc =>
      if cancel i then (true, acc)
      else importNotesLoop mode e cancel cs (i + 1) (importNotesChunk mode e c acc)

/-- The settings phase: upsert each present entry (parsed-JSON values are
never `undefined`), counting the successes. -/
def importSettingsFold (e : Env) (entries : List (String × Json))
    (start : Nat) (s : List SettingRecord) : List SettingRecord × Nat :=
  entries.foldl
    (fun (p : List SettingRecord × Nat) kv =>
      (setSetting kv.1 kv.2 (e.nowSeq (start + p.2)) p.1, p.2 + 1))
    (s, 0)

/-- `ImportExportManager.importData` (src/unnamed/part_003:195-297) after a
successful read, parse and structural validation, on typed note data (the
source casts `data.notes as Note[]`).  The chunk loop runs when notes were
requested and present; the catch block (src:289-296) maps the dedicated
`Import cancelled` throw to the structured result with the
`"Import was cancelled"` error, any already-committed chunks staying in the
store.  The signal is also polled once more between the chunk loop and the
settings phase (src:265). -/
def importData (mode : MergeMode) (e : Env) (cancel : Nat → Bool)
    (importNotesFlag importSettingsFlag : Bool) (notes : List Note)
    (settingsData : List (String × Json)) (st : AppState) :
    ImportResult × AppState :=
  let acc0 : ImportAcc :=
    { store := st.notes, genIdx := 0, importedNotes := 0, warnings := [] }
  let chunks := chunkArray notes CHUNK_SIZE
  let run : Bool × ImportAcc :=
    if importNotesFlag then importNotesLoop mode e cancel chunks 0 acc0
    else (cancel 0, acc0)
  let cancelled := run.1
  let acc := run.2
  if cancelled then
    ({ success := false
       importedNotes := acc.importedNotes
       importedSettings := 0
       errors := ["Import was cancelled"]
       warnings := acc.warnings }, { st with notes := acc.store })
  else if cancel (if importNotesFlag then chunks.length else 0) then
    ({ success := false
       importedNotes := acc.importedNotes
       importedSettings := 0
       errors := ["Import was cancelled"]
       warnings := acc.warnings }, { st with notes := acc.store })
  else
    let settingsRun :=
      if importSettingsFlag then
        importSettingsFold e settingsData acc.genIdx st.settings
      else (st.settings, 0)
    ({ success := true
       importedNotes := acc.importedNotes
       importedSettings := settingsRun.2
       errors := []
       warnings := acc.warnings },
     { st with notes := acc.store, settings := settingsRun.1 })

/-- An empty application state. -/
def emptyState : AppState :=
  { notes := [], settings := []
    images := { images := [], pendingImages := [], blobUrlCache := [] } }

/-- The record created by `createNote` at the k-th clock/random draw for the
imported note `n` (merge-mode import path). -/
def createdNote (e : Env) (k : Nat) (n : Note) : Note :=
  { id := genId e k
    title := n.title
    content := n.content
    date := n.date
    emotion := n.emotion
    createdAt := e.nowSeq k
    updatedAt := e.nowSeq k }

/-- The records a merge-mode import creates for the list `ns`, drawing fresh
ids from index `g` on. -/
def createdNotes (e : Env) : Nat → List Note → List Note
  | _, [] => []
  | g, n :: ns => createdNote e g n :: createdNotes e (g + 1) ns

/-! ### Concrete fixtures used by witnesses and counterexamples -/

/-- A sample stored note. -/
def wNote : Note :=
  { id := "note_1_aaaaaaaaa", title := "t1", content := "c1", date := "d1"
    emotion := .Calm, createdAt := 1, updatedAt := 1 }

/-- A second sample note. -/
def wNote2 : Note :=
  { id := "note_2_bbbbbbbbb", title := "t2", content := "c2", date := "d2"
    emotion := .Sad, createdAt := 2, updatedAt := 2 }

/-- A concrete platform environment: the clock advances by one per draw. -/
def wEnv : Env :=
  { nowSeq := fun k => 100 + k, sufSeq := fun _ => "zzzzzzzzz" }

/-- A sample application state holding the two sample notes. -/
def wState : AppState :=
  { notes := [wNote, wNote2], settings := []
    images := { images := [], pendingImages := [], blobUrlCache := [] } }

/-- An unreferenced temporary image uploaded at time 0 (10 minutes before the
cleanup instant `600000`). -/
def wImageOld : StoredImage :=
  { id := "img_1_x", filename := "f.png", mimeType := "image/png", size := 1
    uploadedAt := 0, isTemporary := some true, lastReferencedAt := none }

/-- An image store holding only `wImageOld`. -/
def wImgState : ImageState :=
  { images := [wImageOld], pendingImages := [], blobUrlCache := [] }

/-! # Theorems -/

/-- The broken-anchor pattern matches at no offset: after the mandatory `]`
the first `$` requires end of input, and the literal `blob:` then has no
characters left to consume. -/
theorem tryMatchBrokenAt_eq_none (cs : List Char) (i : Nat) :
    tryMatchBrokenAt cs i = none := by
  unfold tryMatchBrokenAt
  repeat' split <;> simp_all

/-- The global scan of the broken pattern finds no matches. -/
theorem gScanBroken_eq_nil (cs : List Char) :
    ∀ (fuel i : Nat), gScanBroken cs i fuel = [] := by
  intro fuel
  induction fuel with
  | zero => intro i; rfl
  | succ n ih =>
      intro i
      unfold gScanBroken
      rw [tryMatchBrokenAt_eq_none]
      by_cases h : i > cs.length <;> simp [h, ih]

/-- C2 (code bug): on the specification's own example input — and indeed on
every input — `extractImageIds` returns the empty list instead of the
referenced ids, because the regular expression
`/!\[([^\]]*)\]$$blob:([^)]+)$$/g` contains two `$` end-of-input anchors in
mid-pattern and is unsatisfiable. -/
theorem c2_extractImageIds_always_empty :
    (∀ s : String, extractImageIds s = []) ∧
    extractImageIds "![x](blob:img_1) text ![y](blob:img_2)" ≠
      ["img_1", "img_2"] := by
  have hall : ∀ s : String, extractImageIds s = [] := by
    intro s
    simp [extractImageIds, gScanBroken_eq_nil]
  refine ⟨hall, ?_⟩
  rw [hall]
  simp

/-- If no stored note has the id, a single `updateNote` attempt throws the
not-found error and leaves the store untouched. -/
theorem updateNote_not_found (s : NoteStore) (id : String) (p : NotePatch)
    (now : Nat) (h : ∀ n ∈ s, n.id ≠ id) :
    updateNote s id p now =
      (.error ("Note with id " ++ id ++ " not found"), s) := by
  unfold updateNote findNote
  rw [List.find?_eq_none.mpr (by intro n hn; simpa using h n hn)]

/-- C5: for an id absent from the store, `updateNote` (through its bounded
retry wrapper) fails with the not-found error and performs no write: the
store contents are returned completely unchanged. -/
theorem c5_updateNote_missing_id_no_write (s : NoteStore) (id : String)
    (p : NotePatch) (now : Nat) (h : ∀ n ∈ s, n.id ≠ id) :
    updateNoteOp s id p now =
      (.error ("Note with id " ++ id ++ " not found"), s) := by
  have h1 := updateNote_not_found s id p now h
  unfold updateNoteOp withRetry
  rw [h1]
  unfold withRetry
  rw [h1]
  unfold withRetry
  rw [h1]

/-- Witness for C5 at a concrete input. -/
theorem c5_witness :
    updateNoteOp [wNote] "missing" {} 7 =
      (.error ("Note with id " ++ "missing" ++ " not found"), [wNote]) :=
  c5_updateNote_missing_id_no_write [wNote] "missing" {} 7 (by decide)

/-- C3 counterexample: a partial that carries a `createdAt` field does
overwrite the stored `createdAt` (the runtime object spread applies every
present field; only the TypeScript signature forbids it).  The stored note of
id `note_1_aaaaaaaaa` had `createdAt = 1`; after the update it is 5. -/
theorem c3_counterexample :
    ((updateNoteOp [wNote] "note_1_aaaaaaaaa" { createdAt := some 5 } 10).2.map
        (fun n => n.createdAt)) = [5] ∧ (5 : Nat) ≠ 1 := by
  constructor
  · decide
  · decide

/-- C3 (amended): provided the partial does not carry `id` or `createdAt`
fields — which is what the TypeScript type `Partial<Omit<Note, "id" |
"createdAt">>` enforces statically — the update preserves `id` and
`createdAt`, sets `updatedAt := now`, merges the supplied fields over the
existing record, and persists exactly the merged record. -/
theorem c3_update_preserves_id_createdAt (s : NoteStore) (id : String)
    (p : NotePatch) (now : Nat) (existing : Note)
    (hfind : findNote s id = some existing)
    (hid : p.id = none) (hcreated : p.createdAt = none) :
    updateNoteOp s id p now =
      (.ok (mergeNote existing p now), putNote s (mergeNote existing p now)) ∧
    (mergeNote existing p now).id = existing.id ∧
    (mergeNote existing p now).createdAt = existing.createdAt ∧
    (mergeNote existing p now).updatedAt = now ∧
    (mergeNote existing p now).title = p.title.getD existing.title ∧
    (mergeNote existing p now).content = p.content.getD existing.content ∧
    (mergeNote existing p now).date = p.date.getD existing.date ∧
    (mergeNote existing p now).emotion = p.emotion.getD existing.emotion := by
  have h1 : updateNote s id p now =
      (.ok (mergeNote existing p now), putNote s (mergeNote existing p now)) := by
    unfold updateNote
    rw [hfind]
  refine ⟨?_, ?_, ?_, rfl, rfl, rfl, rfl, rfl⟩
  · unfold updateNoteOp withRetry
    rw [h1]
  · simp [mergeNote, hid]
  · simp [mergeNote, hcreated]

/-- Witness for C3 (amended) at a concrete input. -/
theorem c3_update_preserves_witness :
    updateNoteOp [wNote] "note_1_aaaaaaaaa" { title := some "new" } 10 =
      (.ok (mergeNote wNote { title := some "new" } 10),
        putNote [wNote] (mergeNote wNote { title := some "new" } 10)) ∧
    (mergeNote wNote { title := some "new" } 10).id = wNote.id ∧
    (mergeNote wNote { title := some "new" } 10).createdAt = wNote.createdAt ∧
    (mergeNote wNote { title := some "new" } 10).updatedAt = 10 ∧
    (mergeNote wNote { title := some "new" } 10).title =
      (Option.some "new").getD wNote.title ∧
    (mergeNote wNote { title := some "new" } 10).content =
      Option.none.getD wNote.content ∧
    (mergeNote wNote { title := some "new" } 10).date =
      Option.none.getD wNote.date ∧
    (mergeNote wNote { title := some "new" } 10).emotion =
      Option.none.getD wNote.emotion :=
  c3_update_preserves_id_createdAt [wNote] "note_1_aaaaaaaaa"
    { title := some "new" } 10 wNote (by decide) rfl rfl

/-- Inserting into the sorted prefix adds exactly the new element. -/
theorem mem_insertNoteDesc (n x : Note) :
    ∀ (l : List Note), x ∈ insertNoteDesc n l ↔ x = n ∨ x ∈ l := by
  intro l
  induction l with
  | nil => simp [insertNoteDesc]
  | cons m rest ih =>
      unfold insertNoteDesc
      by_cases h : Nat.blt m.createdAt n.createdAt = true
      · rw [if_pos h]
        simp
      · rw [if_neg h]
        simp only [List.mem_cons, ih]
        tauto

/-- `getAllNotes` returns exactly the stored notes. -/
theorem mem_getAllNotes (s : NoteStore) (x : Note) :
    x ∈ getAllNotes s ↔ x ∈ s := by
  unfold getAllNotes
  suffices h : ∀ (l : List Note) (acc : List Note),
      x ∈ l.foldl (fun acc n => insertNoteDesc n acc) acc ↔
        x ∈ acc ∨ x ∈ l by
    rw [h s []]
    simp
  intro l
  induction l with
  | nil => intro acc; simp
  | cons n rest ih =>
      intro acc
      rw [List.foldl_cons, ih, mem_insertNoteDesc]
      simp only [List.mem_cons]
      tauto

/-- C7: `searchNotes` returns exactly the notes of the store whose title or
content contains the query as a case-insensitive substring; the empty query
returns all notes; and an internal failure of the underlying fetch yields the
empty list rather than an error. -/
theorem c7_searchNotes_characterization (s : NoteStore) (q : String) :
    (∀ n, n ∈ searchNotes s q ↔
        n ∈ s ∧ (jsIncludes (jsLower n.title) (jsLower q)
          || jsIncludes (jsLower n.content) (jsLower q)) = true) ∧
    searchNotes s "" = getAllNotes s ∧
    (∀ err q', searchNotesR (.error err) q' = []) := by
  refine ⟨?_, ?_, fun _ _ => rfl⟩
  · intro n
    unfold searchNotes searchNotesR
    rw [List.mem_filter, mem_getAllNotes]
    unfold noteMatches
    rfl
  · unfold searchNotes searchNotesR
    apply List.filter_eq_self.mpr
    intro n _
    have hempty : jsLower "" = [] := rfl
    simp [noteMatches, hempty, jsIncludes]

/-- `checkComplete` advances the counter by one. -/
theorem checkComplete_completed (t : Nat) (st : DeleteManyState) :
    (checkComplete t st).completed = st.completed + 1 := rfl

/-- `checkComplete` settles exactly when the advanced counter hits the
total. -/
theorem checkComplete_settled (t : Nat) (st : DeleteManyState) :
    (checkComplete t st).settled = (st.settled || (st.completed + 1 == t)) :=
  rfl

/-- Fold invariant of the `deleteMultipleNotes` completion callbacks: after
`l.length` further callbacks the counter has advanced by `l.length`, and the
promise has settled exactly when some callback observed `completed = total`. -/
theorem deleteCallbacks_fold (total : Nat) :
    ∀ (l : List String) (st : DeleteManyState),
      (l.foldl (fun s _ => checkComplete total s) st).completed
          = st.completed + l.length ∧
      ((l.foldl (fun s _ => checkComplete total s) st).settled = true ↔
        st.settled = true ∨ ∃ i, i < l.length ∧ st.completed + i + 1 = total) := by
  intro l
  induction l with
  | nil => intro st; simp
  | cons a l ih =>
      intro st
      have h := ih (checkComplete total st)
      rw [List.foldl_cons]
      refine ⟨?_, ?_⟩
      · rw [h.1, checkComplete_completed]
        simp only [List.length_cons]
        omega
      · rw [h.2]
        simp only [checkComplete_settled, checkComplete_completed,
          Bool.or_eq_true, beq_iff_eq, List.length_cons]
        constructor
        · rintro (⟨hs | hc⟩ | ⟨i, hi, he⟩)
          · exact Or.inl hs
          · exact Or.inr ⟨0, by omega, by omega⟩
          · exact Or.inr ⟨i + 1, by omega, by omega⟩
        · rintro (hs | ⟨i, hi, he⟩)
          · exact Or.inl (Or.inl hs)
          · cases i with
            | zero => exact Or.inl (Or.inr (by omega))
            | succ j => exact Or.inr ⟨j, by omega, by omega⟩

/-- C8: when the serialized export envelope exceeds 50 MiB, `exportAllData`
returns a failure carrying the size-limit error and triggers no download;
otherwise it hands the payload to the download mechanism under the
timestamped `notes_backup_<date>.json` filename. -/
theorem c8_export_size_limit (stringify : ExportData → String)
    (isoNow : String) (st : AppState) :
    ((stringify (exportEnvelope isoNow st)).utf8ByteSize > MAX_FILE_SIZE →
      exportAllData stringify isoNow st =
        { success := false
          error := some (exportTooLargeMsg
            (stringify (exportEnvelope isoNow st)).utf8ByteSize)
          filename := none
          download := none }) ∧
    ((stringify (exportEnvelope isoNow st)).utf8ByteSize ≤ MAX_FILE_SIZE →
      exportAllData stringify isoNow st =
        { success := true
          error := none
          filename := some ("notes_backup_" ++ exportTimestamp isoNow ++ ".json")
          download := some ("notes_backup_" ++ exportTimestamp isoNow ++ ".json") }) := by
  constructor
  · intro hbig
    simp [exportAllData, hbig]
  · intro hsmall
    simp [exportAllData, Nat.not_lt.mpr hsmall]

/-- Witness for C8 at a concrete input (an empty serialization, well under
the limit, so the download fires). -/
theorem c8_export_size_limit_witness :
    exportAllData (fun _ => "x") "2026-10-11T00:00:00.000Z" emptyState =
      { success := true
        error := none
        filename := some ("notes_backup_" ++
          exportTimestamp "2026-10-11T00:00:00.000Z" ++ ".json")
        download := some ("notes_backup_" ++
          exportTimestamp "2026-10-11T00:00:00.000Z" ++ ".json") } :=
  (c8_export_size_limit (fun _ => "x") "2026-10-11T00:00:00.000Z"
    emptyState).2 (by decide)

/-- C9: `previewImport` is a pure read — in every branch (size failure,
extension failure, parse failure, structural-validation failure, and the
successful analysis) the persisted state (notes, settings, images) is
returned unchanged. -/
theorem c9_previewImport_no_mutation (file : FileModel)
    (parse : String → Option Json) (st : AppState) :
    (previewImport file parse st).2 = st := by
  unfold previewImport
  dsimp only
  repeat' split
  all_goals rfl

/-- `refreshImage` preserves the record id. -/
theorem refreshImage_id (now : Nat) (img : StoredImage) :
    (refreshImage now img).id = img.id := rfl

/-- A pending image is skipped by the cleanup step. -/
theorem cleanupStep_of_pending {referenced : List String} {force : Bool}
    {now : Nat} {acc : Nat × ImageState} {img : StoredImage}
    (hp : acc.2.pendingImages.contains img.id = true) :
    cleanupStep referenced force now acc img = acc := by
  unfold cleanupStep
  rw [if_pos hp]

/-- A non-pending referenced image is refreshed by the cleanup step. -/
theorem cleanupStep_of_referenced {referenced : List String} {force : Bool}
    {now : Nat} {acc : Nat × ImageState} {img : StoredImage}
    (hp : acc.2.pendingImages.contains img.id = false)
    (hr : referenced.contains img.id = true) :
    cleanupStep referenced force now acc img =
      (acc.1, { acc.2 with
        images := markImageAsReferenced now img.id acc.2.images }) := by
  unfold cleanupStep
  rw [if_neg (by rw [hp]; exact Bool.false_ne_true), if_pos hr]

/-- A non-pending unreferenced image is deleted by the cleanup step when
forced or eligible. -/
theorem cleanupStep_of_delete {referenced : List String} {force : Bool}
    {now : Nat} {acc : Nat × ImageState} {img : StoredImage}
    (hp : acc.2.pendingImages.contains img.id = false)
    (hr : referenced.contains img.id = false)
    (hd : (force || shouldDeleteImage img now) = true) :
    cleanupStep referenced force now acc img =
      (acc.1 + 1, deleteImage img.id acc.2) := by
  unfold cleanupStep
  rw [if_neg (by rw [hp]; exact Bool.false_ne_true),
    if_neg (by rw [hr]; exact Bool.false_ne_true), if_pos hd]

/-- A non-pending unreferenced image is kept by the cleanup step when neither
forced nor eligible. -/
theorem cleanupStep_of_keep {referenced : List String} {force : Bool}
    {now : Nat} {acc : Nat × ImageState} {img : StoredImage}
    (hp : acc.2.pendingImages.contains img.id = false)
    (hr : referenced.contains img.id = false)
    (hd : (force || shouldDeleteImage img now) = false) :
    cleanupStep referenced force now acc img = acc := by
  unfold cleanupStep
  rw [if_neg (by rw [hp]; exact Bool.false_ne_true),
    if_neg (by rw [hr]; exact Bool.false_ne_true),
    if_neg (by rw [hd]; exact Bool.false_ne_true)]

/-- Cleanup-step trichotomy: every step either leaves the accumulator alone,
refreshes the current image's record, or deletes it. -/
theorem cleanupStep_cases (referenced : List String) (force : Bool)
    (now : Nat) (acc : Nat × ImageState) (img : StoredImage) :
    cleanupStep referenced force now acc img = acc ∨
    cleanupStep referenced force now acc img =
      (acc.1, { acc.2 with
        images := markImageAsReferenced now img.id acc.2.images }) ∨
    cleanupStep referenced force now acc img =
      (acc.1 + 1, deleteImage img.id acc.2) := by
  by_cases hp : acc.2.pendingImages.contains img.id = true
  · exact Or.inl (cleanupStep_of_pending hp)
  · have hp' : acc.2.pendingImages.contains img.id = false :=
      Bool.not_eq_true _ ▸ hp
    by_cases hr : referenced.contains img.id = true
    · exact Or.inr (Or.inl (cleanupStep_of_referenced hp' hr))
    · have hr' : referenced.contains img.id = false :=
        Bool.not_eq_true _ ▸ hr
      by_cases hd : (force || shouldDeleteImage img now) = true
      · exact Or.inr (Or.inr (cleanupStep_of_delete hp' hr' hd))
      · exact Or.inl (cleanupStep_of_keep hp' hr' (Bool.not_eq_true _ ▸ hd))

/-- The cleanup loop never touches the pending-upload set. -/
theorem cleanup_fold_pending (referenced : List String) (force : Bool)
    (now : Nat) :
    ∀ (l : List StoredImage) (acc : Nat × ImageState),
      ((l.foldl (cleanupStep referenced force now) acc).2).pendingImages
        = acc.2.pendingImages := by
  intro l
  induction l with
  | nil => intro acc; rfl
  | cons j l ih =>
      intro acc
      rw [List.foldl_cons, ih]
      rcases cleanupStep_cases referenced force now acc j with h | h | h <;>
        (rw [h]; try rfl)

/-- A record whose id differs from every remaining snapshot id survives the
rest of the cleanup loop untouched. -/
theorem cleanup_fold_keep (referenced : List String) (force : Bool)
    (now : Nat) :
    ∀ (l : List StoredImage) (acc : Nat × ImageState) (x : StoredImage),
      x ∈ acc.2.images → (∀ j ∈ l, j.id ≠ x.id) →
      x ∈ ((l.foldl (cleanupStep referenced force now) acc).2).images := by
  intro l
  induction l with
  | nil => intro acc x hx _; exact hx
  | cons j l ih =>
      intro acc x hx hne
      rw [List.foldl_cons]
      refine ih _ x ?_ (fun j' hj' => hne j' (List.mem_cons_of_mem _ hj'))
      have hxj : ¬(x.id = j.id) := fun h => hne j (List.mem_cons_self _ _) h.symm
      rcases cleanupStep_cases referenced force now acc j with h | h | h <;> rw [h]
      · exact hx
      · exact List.mem_map.mpr ⟨x, hx, by
          show (if x.id = j.id then refreshImage now x else x) = x
          rw [if_neg hxj]⟩
      · exact List.mem_filter.mpr ⟨hx, decide_eq_true hxj⟩

/-- The cleanup loop never introduces a record with a new id: if no record
with id `xid` is present, none appears later. -/
theorem cleanup_fold_no_id (referenced : List String) (force : Bool)
    (now : Nat) :
    ∀ (l : List StoredImage) (acc : Nat × ImageState) (xid : String),
      (∀ r ∈ acc.2.images, r.id ≠ xid) →
      ∀ r ∈ ((l.foldl (cleanupStep referenced force now) acc).2).images,
        r.id ≠ xid := by
  intro l
  induction l with
  | nil => intro acc xid h; exact h
  | cons j l ih =>
      intro acc xid h
      rw [List.foldl_cons]
      refine ih _ xid ?_
      intro r hrm
      rcases cleanupStep_cases referenced force now acc j with hs | hs | hs <;>
        rw [hs] at hrm
      · exact h r hrm
      · obtain ⟨r0, hr0, hmap⟩ := List.mem_map.mp hrm
        have hsameid : r.id = r0.id := by
          subst hmap
          by_cases hj : r0.id = j.id
          · rw [if_pos hj, refreshImage_id]
          · rw [if_neg hj]
        rw [hsameid]
        exact h r0 hr0
      · exact h r (List.mem_filter.mp hrm).1

/-- C4: the per-image outcome of `cleanupUnusedImages` on a store with unique
image ids.  A pending image is never deleted; a non-pending referenced image
is kept with its reference time refreshed (`isTemporary := false`,
`lastReferencedAt := now`); any other image is deleted exactly when `force`
is set or `shouldDeleteImage` holds (uploaded at least 5 minutes ago, not
referenced within 5 minutes, and flagged temporary). -/
theorem c4_cleanup_characterization (referenced : List String) (force : Bool)
    (now : Nat) (st : ImageState) (img : StoredImage)
    (hmem : img ∈ st.images)
    (hids : st.images.Pairwise (fun a b => a.id ≠ b.id)) :
    (st.pendingImages.contains img.id = true →
        img ∈ ((cleanupUnusedImages referenced force now st).2).images) ∧
    (st.pendingImages.contains img.id = false →
      referenced.contains img.id = true →
        refreshImage now img ∈
          ((cleanupUnusedImages referenced force now st).2).images) ∧
    (st.pendingImages.contains img.id = false →
      referenced.contains img.id = false →
        ((∃ r ∈ ((cleanupUnusedImages referenced force now st).2).images,
            r.id = img.id) ↔ (force || shouldDeleteImage img now) = false)) := by
  obtain ⟨l1, l2, hsplit⟩ := List.append_of_mem hmem
  have hpw := hids
  rw [hsplit] at hpw
  obtain ⟨h1, h2, hcross⟩ := List.pairwise_append.mp hpw
  obtain ⟨himgl2, -⟩ := List.pairwise_cons.mp h2
  have hl1 : ∀ j ∈ l1, j.id ≠ img.id :=
    fun j hj => hcross j hj img (List.mem_cons_self _ _)
  have hl2 : ∀ j ∈ l2, j.id ≠ img.id := fun j hj => (himgl2 j hj).symm
  have hfold : cleanupUnusedImages referenced force now st
      = (img :: l2).foldl (cleanupStep referenced force now)
          (l1.foldl (cleanupStep referenced force now) (0, st)) := by
    unfold cleanupUnusedImages
    rw [hsplit, List.foldl_append]
  set acc1 := l1.foldl (cleanupStep referenced force now) (0, st) with hacc1
  have hpend1 : acc1.2.pendingImages = st.pendingImages :=
    cleanup_fold_pending referenced force now l1 (0, st)
  have himg1 : img ∈ acc1.2.images := by
    refine cleanup_fold_keep referenced force now l1 (0, st) img ?_ hl1
    show img ∈ st.images
    exact hmem
  refine ⟨?_, ?_, ?_⟩
  · intro hp
    rw [hfold, List.foldl_cons,
      cleanupStep_of_pending (by rw [hpend1]; exact hp)]
    exact cleanup_fold_keep referenced force now l2 acc1 img himg1 hl2
  · intro hp hr
    rw [hfold, List.foldl_cons,
      cleanupStep_of_referenced (by rw [hpend1]; exact hp) hr]
    refine cleanup_fold_keep referenced force now l2 _ _ ?_ ?_
    · exact List.mem_map.mpr ⟨img, himg1, by
        show (if img.id = img.id then refreshImage now img else img)
          = refreshImage now img
        rw [if_pos rfl]⟩
    · intro j hj
      rw [refreshImage_id]
      exact hl2 j hj
  · intro hp hr
    by_cases hd : (force || shouldDeleteImage img now) = true
    · rw [hfold, List.foldl_cons,
        cleanupStep_of_delete (by rw [hpend1]; exact hp) hr hd, hd]
      simp only [Bool.true_eq_false, iff_false]
      rintro ⟨r, hrmem, hrid⟩
      have hnone : ∀ r' ∈ (deleteImage img.id acc1.2).images,
          r'.id ≠ img.id := by
        intro r' hr'
        have := (List.mem_filter.mp hr').2
        simpa using this
      exact cleanup_fold_no_id referenced force now l2
        (acc1.1 + 1, deleteImage img.id acc1.2) img.id hnone r hrmem hrid
    · have hdf : (force || shouldDeleteImage img now) = false :=
        Bool.not_eq_true _ ▸ hd
      rw [hfold, List.foldl_cons,
        cleanupStep_of_keep (by rw [hpend1]; exact hp) hr hdf, hdf]
      simp only [iff_true]
      exact ⟨img,
        cleanup_fold_keep referenced force now l2 acc1 img himg1 hl2, rfl⟩

/-- Witness for C4 at a concrete input: a non-pending, unreferenced temporary
image uploaded 10 minutes before a safe (`force = false`) cleanup is
deleted. -/
theorem c4_cleanup_witness :
    (wImgState.pendingImages.contains wImageOld.id = true →
        wImageOld ∈ ((cleanupUnusedImages [] false 600000 wImgState).2).images) ∧
    (wImgState.pendingImages.contains wImageOld.id = false →
      ([] : List String).contains wImageOld.id = true →
        refreshImage 600000 wImageOld ∈
          ((cleanupUnusedImages [] false 600000 wImgState).2).images) ∧
    (wImgState.pendingImages.contains wImageOld.id = false →
      ([] : List String).contains wImageOld.id = false →
        ((∃ r ∈ ((cleanupUnusedImages [] false 600000 wImgState).2).images,
            r.id = wImageOld.id) ↔
          (false || shouldDeleteImage wImageOld 600000) = false)) :=
  c4_cleanup_characterization [] false 600000 wImgState wImageOld
    (by decide) (by decide)


/-- If the cancellation signal first reads true at chunk boundary `k`, the
chunk loop runs exactly the chunks before index `k` and stops with the
cancelled outcome, keeping the accumulator of the completed chunks. -/
theorem importNotesLoop_cancelAt (mode : MergeMode) (e : Env) (k : Nat) :
    ∀ (cs : List (List Note)) (i : Nat) (acc : ImportAcc),
      i ≤ k → k < i + cs.length →
      importNotesLoop mode e (fun j => decide (k ≤ j)) cs i acc =
        (true, (cs.take (k - i)).foldl
          (fun a c => importNotesChunk mode e c a) acc) := by
  intro cs
  induction cs with
  | nil =>
      intro i acc hik hk
      simp at hk
      omega
  | cons c cs ih =>
      intro i acc hik hk
      unfold importNotesLoop
      by_cases hki : k ≤ i
      · have hk_eq : k = i := Nat.le_antisymm hki hik
        rw [if_pos (decide_eq_true hki)]
        rw [hk_eq, Nat.sub_self]
        rfl
      · rw [if_neg (by simpa using hki)]
        rw [ih (i + 1) (importNotesChunk mode e c acc) (by omega)
          (by simp only [List.length_cons] at hk; omega)]
        have hsub : k - i = (k - (i + 1)) + 1 := by omega
        rw [hsub, List.take_succ_cons, List.foldl_cons]

/-- C6: when the cancellation signal is first observed at chunk boundary
`k` (strictly inside the chunk sequence), the import stops with
`success = false` and the cancellation-specific `"Import was cancelled"`
error; the store keeps exactly the records committed by the `k` completed
chunks, and `imported.notes` counts only those chunks' records. -/
theorem c6_import_cancellation (mode : MergeMode) (e : Env) (k : Nat)
    (importSettingsFlag : Bool) (notes : List Note)
    (settingsData : List (String × Json)) (st : AppState)
    (hk : k < (chunkArray notes CHUNK_SIZE).length) :
    importData mode e (fun j => decide (k ≤ j)) true importSettingsFlag
        notes settingsData st =
      (let acc := (((chunkArray notes CHUNK_SIZE).take k).foldl
          (fun a c => importNotesChunk mode e c a)
          { store := st.notes, genIdx := 0, importedNotes := 0
            warnings := [] });
       ({ success := false
          importedNotes := acc.importedNotes
          importedSettings := 0
          errors := ["Import was cancelled"]
          warnings := acc.warnings }, { st with notes := acc.store })) := by
  unfold importData
  dsimp only
  rw [importNotesLoop_cancelAt mode e k (chunkArray notes CHUNK_SIZE) 0 _
    (Nat.zero_le k) (by simpa using hk)]
  simp only [Nat.sub_zero, if_true, ite_true]

/-- Chunking with a positive chunk size partitions the list: flattening the
chunks gives the original list back. -/
theorem chunkArrayAux_flatten {α : Type} (k : Nat) (hk : 1 ≤ k) :
    ∀ (fuel : Nat) (l : List α), l.length ≤ fuel →
      (chunkArrayAux k fuel l).flatten = l := by
  intro fuel
  induction fuel with
  | zero =>
      intro l hl
      cases l with
      | nil => rfl
      | cons x xs => simp at hl
  | succ n ih =>
      intro l hl
      cases l with
      | nil => rfl
      | cons x xs =>
          show ((x :: xs).take k :: chunkArrayAux k n ((x :: xs).drop k)).flatten
            = x :: xs
          rw [List.flatten_cons, ih _ (by
            simp only [List.length_drop, List.length_cons]
            simp only [List.length_cons] at hl
            omega)]
          exact List.take_append_drop _ _

/-- `chunkArray` with a positive chunk size partitions the list. -/
theorem chunkArray_flatten {α : Type} (k : Nat) (hk : 1 ≤ k) (l : List α) :
    (chunkArray l k).flatten = l :=
  chunkArrayAux_flatten k hk l.length l (Nat.le_refl _)

/-- With a never-aborting signal the chunk loop completes all chunks. -/
theorem importNotesLoop_noCancel (mode : MergeMode) (e : Env) :
    ∀ (cs : List (List Note)) (i : Nat) (acc : ImportAcc),
      importNotesLoop mode e (fun _ => false) cs i acc =
        (false, cs.foldl (fun a c => importNotesChunk mode e c a) acc) := by
  intro cs
  induction cs with
  | nil => intro i acc; rfl
  | cons c cs ih =>
      intro i acc
      unfold importNotesLoop
      rw [if_neg (by simp), ih, List.foldl_cons]

/-- Folding over the chunks equals folding over the flattened records. -/
theorem foldl_chunks_eq_flatten {α β : Type} (f : β → α → β) :
    ∀ (cs : List (List α)) (acc : β),
      cs.foldl (fun a c => c.foldl f a) acc = cs.flatten.foldl f acc := by
  intro cs
  induction cs with
  | nil => intro acc; rfl
  | cons c cs ih =>
      intro acc
      rw [List.foldl_cons, ih, List.flatten_cons, List.foldl_append]

/-- Merge-mode chunk processing is the per-record merge fold. -/
theorem importNotesChunk_merge (e : Env) (c : List Note) (a : ImportAcc) :
    importNotesChunk .merge e c a = c.foldl (importNoteMerge e) a := rfl

/-- The records a merge-mode import creates carry the imported title,
content, emotion and date unchanged. -/
theorem createdNotes_proj (e : Env) :
    ∀ (ns : List Note) (g : Nat),
      (createdNotes e g ns).map (fun n => (n.title, n.content, n.emotion, n.date))
        = ns.map (fun n => (n.title, n.content, n.emotion, n.date)) := by
  intro ns
  induction ns with
  | nil => intro g; rfl
  | cons n ns ih =>
      intro g
      show (n.title, n.content, n.emotion, n.date) ::
          (createdNotes e (g + 1) ns).map
            (fun n => (n.title, n.content, n.emotion, n.date))
        = (n.title, n.content, n.emotion, n.date) ::
          ns.map (fun n => (n.title, n.content, n.emotion, n.date))
      rw [ih (g + 1)]

/-- The records a merge-mode import creates carry the freshly generated ids,
in draw order. -/
theorem createdNotes_ids (e : Env) :
    ∀ (ns : List Note) (g : Nat),
      (createdNotes e g ns).map (fun n => n.id)
        = (List.range ns.length).map (fun j => genId e (g + j)) := by
  intro ns
  induction ns with
  | nil => intro g; rfl
  | cons n ns ih =>
      intro g
      show genId e g :: (createdNotes e (g + 1) ns).map (fun n => n.id)
        = (List.range (ns.length + 1)).map (fun j => genId e (g + j))
      rw [ih (g + 1), List.range_succ_eq_map, List.map_cons, List.map_map,
        Nat.add_zero]
      congr 1
      apply List.map_congr_left
      intro j _
      show genId e ((g + 1) + j) = genId e (g + (j + 1))
      congr 1
      omega

/-- The merge-mode fold over a batch of imported notes, starting from a store
whose ids are exactly the previously generated ids: every record is created
(none skipped, none failing), consuming one fresh id per record. -/
theorem importMerge_fold (e : Env) :
    ∀ (ns : List Note) (g m : Nat) (w : List String) (s : NoteStore),
      s.map (fun n => n.id) = (List.range g).map (genId e) →
      (∀ j, j < g + ns.length → ∀ n ∈ ns, genId e j ≠ n.id) →
      (∀ j', j' < g + ns.length → ∀ j, j < j' → genId e j ≠ genId e j') →
      ns.foldl (importNoteMerge e)
          { store := s, genIdx := g, importedNotes := m, warnings := w } =
        { store := s ++ createdNotes e g ns, genIdx := g + ns.length,
          importedNotes := m + ns.length, warnings := w } := by
  intro ns
  induction ns with
  | nil =>
      intro g m w s hS hfresh hinj
      show _ = ImportAcc.mk (s ++ createdNotes e g []) (g + 0) (m + 0) w
      rw [show createdNotes e g [] = [] from rfl, List.append_nil]
      rfl
  | cons n ns ih =>
      intro g m w s hS hfresh hinj
      rw [List.foldl_cons]
      have hfind : findNote s n.id = none := by
        unfold findNote
        apply List.find?_eq_none.mpr
        intro x hx
        have hxid : x.id ∈ s.map (fun n => n.id) := List.mem_map_of_mem _ hx
        rw [hS] at hxid
        obtain ⟨j, hj, hjx⟩ := List.mem_map.mp hxid
        have hjg : j < g := List.mem_range.mp hj
        simp only [decide_eq_true_eq]
        intro hEq
        exact hfresh j (by simp only [List.length_cons]; omega) n
          (List.mem_cons_self _ _) (by rw [hjx, hEq])
      have hany : (s.any (fun m0 =>
          m0.id = genNoteId (e.nowSeq g) (e.sufSeq g))) = false := by
        rw [List.any_eq_false]
        intro x hx
        have hxid : x.id ∈ s.map (fun n => n.id) := List.mem_map_of_mem _ hx
        rw [hS] at hxid
        obtain ⟨j, hj, hjx⟩ := List.mem_map.mp hxid
        have hjg : j < g := List.mem_range.mp hj
        simp only [decide_eq_true_eq]
        intro hEq
        exact hinj g (by simp only [List.length_cons]; omega) j hjg
          (by rw [hjx]; exact hEq)
      have hstep : importNoteMerge e
          { store := s, genIdx := g, importedNotes := m, warnings := w } n =
          { store := s ++ [createdNote e g n], genIdx := g + 1,
            importedNotes := m + 1, warnings := w } := by
        unfold importNoteMerge
        dsimp only
        rw [hfind]
        unfold createNote
        dsimp only
        rw [hany]
        rfl
      rw [hstep]
      have hS' : (s ++ [createdNote e g n]).map (fun n => n.id)
          = (List.range (g + 1)).map (genId e) := by
        rw [List.map_append, hS, List.range_succ, List.map_append]
        rfl
      have hfresh' : ∀ j, j < (g + 1) + ns.length → ∀ n' ∈ ns,
          genId e j ≠ n'.id := by
        intro j hj n' hn'
        exact hfresh j (by simp only [List.length_cons]; omega) n'
          (List.mem_cons_of_mem _ hn')
      have hinj' : ∀ j', j' < (g + 1) + ns.length → ∀ j, j < j' →
          genId e j ≠ genId e j' := by
        intro j' h2 j h1
        exact hinj j' (by simp only [List.length_cons]; omega) j h1
      rw [ih (g + 1) (m + 1) w (s ++ [createdNote e g n]) hS' hfresh' hinj']
      have hstore : (s ++ [createdNote e g n]) ++ createdNotes e (g + 1) ns
          = s ++ createdNotes e g (n :: ns) := by
        rw [List.append_assoc]
        rfl
      have hg : (g + 1) + ns.length = g + (n :: ns).length := by
        simp only [List.length_cons]
        omega
      have hm : (m + 1) + ns.length = m + (n :: ns).length := by
        simp only [List.length_cons]
        omega
      rw [hstore, hg, hm]

/-- A merge-mode import of `ns` into an empty store, with fresh ids disjoint
from the imported ids and pairwise distinct: every record is (re)created and
counted, yielding exactly `createdNotes e 0 ns`. -/
theorem importData_merge_empty (e : Env) (ns : List Note)
    (hfresh : ∀ j, j < ns.length → ∀ n ∈ ns, genId e j ≠ n.id)
    (hinj : ∀ j', j' < ns.length → ∀ j, j < j' → genId e j ≠ genId e j') :
    importData .merge e (fun _ => false) true false ns [] emptyState =
      ({ success := true, importedNotes := ns.length, importedSettings := 0
         errors := [], warnings := [] },
       { emptyState with notes := createdNotes e 0 ns }) := by
  unfold importData
  dsimp only
  rw [importNotesLoop_noCancel]
  have hfold : (chunkArray ns CHUNK_SIZE).foldl
      (fun a c => importNotesChunk MergeMode.merge e c a)
      { store := emptyState.notes, genIdx := 0, importedNotes := 0
        warnings := [] }
      = { store := createdNotes e 0 ns, genIdx := ns.length
          importedNotes := ns.length, warnings := [] } := by
    have h1 : ∀ (cs : List (List Note)) (a : ImportAcc),
        cs.foldl (fun a c => importNotesChunk MergeMode.merge e c a) a
          = cs.flatten.foldl (importNoteMerge e) a := by
      intro cs a
      rw [show (fun (a : ImportAcc) (c : List Note) =>
            importNotesChunk MergeMode.merge e c a)
          = (fun a c => c.foldl (importNoteMerge e) a) from rfl]
      exact foldl_chunks_eq_flatten (importNoteMerge e) cs a
    rw [h1, chunkArray_flatten CHUNK_SIZE (by decide) ns]
    have h2 := importMerge_fold e ns 0 0 [] []
      (by rfl) (by simpa using hfresh) (by simpa using hinj)
    rw [show (emptyState.notes : NoteStore) = [] from rfl]
    rw [h2]
    simp
  rw [hfold]
  simp [emptyState]

/-- C1 counterexample: exporting a two-note store and merge-importing the
file into an empty store does NOT preserve note ids — `createNote` assigns
fresh `note_<now>_<suffix>` ids, so the resulting id list differs from the
exported one. -/
theorem c1_roundtrip_counterexample :
    ((importData .merge wEnv (fun _ => false) true false
        (exportEnvelope "2026-01-01T00:00:00.000Z" wState).notes []
        emptyState).2.notes.map (fun n => n.id))
      = ["note_100_zzzzzzzzz", "note_101_zzzzzzzzz"] ∧
    ((exportEnvelope "2026-01-01T00:00:00.000Z" wState).notes.map
        (fun n => n.id))
      = ["note_2_bbbbbbbbb", "note_1_aaaaaaaaa"] ∧
    (["note_100_zzzzzzzzz", "note_101_zzzzzzzzz"] : List String) ≠
      ["note_2_bbbbbbbbb", "note_1_aaaaaaaaa"] :=
  ⟨by decide, by decide, by decide⟩

/-- C1 (amended): an export → merge-import round trip into an empty store
recreates one note per exported note, preserving title, content, emotion and
date — but each recreated note carries a freshly generated id (and fresh
`createdAt`/`updatedAt` timestamps), not the exported id.  The freshness
hypotheses say the generated ids collide neither with the imported ids nor
with each other. -/
theorem c1_roundtrip_amended (e : Env) (isoNow : String) (st : AppState)
    (hfresh : ∀ j, j < (exportEnvelope isoNow st).notes.length →
        ∀ n ∈ (exportEnvelope isoNow st).notes, genId e j ≠ n.id)
    (hinj : ∀ j', j' < (exportEnvelope isoNow st).notes.length →
        ∀ j, j < j' → genId e j ≠ genId e j') :
    importData .merge e (fun _ => false) true false
        (exportEnvelope isoNow st).notes [] emptyState =
      ({ success := true
         importedNotes := (exportEnvelope isoNow st).notes.length
         importedSettings := 0, errors := [], warnings := [] },
       { emptyState with
         notes := createdNotes e 0 (exportEnvelope isoNow st).notes }) ∧
    (createdNotes e 0 (exportEnvelope isoNow st).notes).map
        (fun n => (n.title, n.content, n.emotion, n.date))
      = (exportEnvelope isoNow st).notes.map
          (fun n => (n.title, n.content, n.emotion, n.date)) ∧
    (createdNotes e 0 (exportEnvelope isoNow st).notes).map (fun n => n.id)
      = (List.range (exportEnvelope isoNow st).notes.length).map
          (fun j => genId e (0 + j)) :=
  ⟨importData_merge_empty e _ hfresh hinj, createdNotes_proj e _ 0,
    createdNotes_ids e _ 0⟩

/-- Witness for C1 (amended) at the concrete two-note state. -/
theorem c1_roundtrip_amended_witness :
    importData .merge wEnv (fun _ => false) true false
        (exportEnvelope "2026-01-01T00:00:00.000Z" wState).notes []
        emptyState =
      ({ success := true
         importedNotes :=
           (exportEnvelope "2026-01-01T00:00:00.000Z" wState).notes.length
         importedSettings := 0, errors := [], warnings := [] },
       { emptyState with
         notes := createdNotes wEnv 0
           (exportEnvelope "2026-01-01T00:00:00.000Z" wState).notes }) ∧
    (createdNotes wEnv 0
        (exportEnvelope "2026-01-01T00:00:00.000Z" wState).notes).map
        (fun n => (n.title, n.content, n.emotion, n.date))
      = (exportEnvelope "2026-01-01T00:00:00.000Z" wState).notes.map
          (fun n => (n.title, n.content, n.emotion, n.date)) ∧
    (createdNotes wEnv 0
        (exportEnvelope "2026-01-01T00:00:00.000Z" wState).notes).map
        (fun n => n.id)
      = (List.range
          (exportEnvelope "2026-01-01T00:00:00.000Z" wState).notes.length).map
          (fun j => genId wEnv (0 + j)) :=
  c1_roundtrip_amended wEnv "2026-01-01T00:00:00.000Z" wState
    (by decide) (by decide)

set_option maxRecDepth 8000 in
/-- Witness for C6: 1001 one-record imports form two chunks; cancelling at
the boundary before chunk index 1 keeps only the first chunk's 1000
records. -/
theorem c6_import_cancellation_witness :
    1 < (chunkArray (List.replicate 1001 wNote) CHUNK_SIZE).length ∧
    importData .merge wEnv (fun j => decide (1 ≤ j)) true false
        (List.replicate 1001 wNote) [] emptyState =
      (let acc := (((chunkArray (List.replicate 1001 wNote) CHUNK_SIZE).take 1).foldl
          (fun a c => importNotesChunk .merge wEnv c a)
          { store := emptyState.notes, genIdx := 0, importedNotes := 0
            warnings := [] });
       ({ success := false
          importedNotes := acc.importedNotes
          importedSettings := 0
          errors := ["Import was cancelled"]
          warnings := acc.warnings },
        { emptyState with notes := acc.store })) :=
  ⟨by decide,
   c6_import_cancellation .merge wEnv 1 false (List.replicate 1001 wNote) []
     emptyState (by decide)⟩

/-- C10: `deleteMultipleNotes` runs one completion callback per requested id
(so every deletion is attempted), and the returned promise settles iff the id
list is non-empty — on the empty list `checkComplete` is never invoked and
the promise neither resolves nor rejects. -/
theorem c10_deleteMultiple_empty_never_settles (ids : List String) :
    (runDeleteCallbacks ids).completed = ids.length ∧
    (deleteMultipleSettles ids = true ↔ ids ≠ []) := by
  have h := deleteCallbacks_fold ids.length ids
    { completed := 0, settled := false }
  unfold deleteMultipleSettles runDeleteCallbacks
  refine ⟨by simpa using h.1, ?_⟩
  rw [h.2]
  simp only [Bool.false_eq_true, false_or]
  constructor
  · rintro ⟨i, hi, he⟩
    intro hnil
    subst hnil
    simp at hi
  · intro hne
    have hpos : 0 < ids.length := List.length_pos.mpr hne
    exact ⟨ids.length - 1, by omega, by omega⟩

end LocalNote
